import Mathlib

/-
Verification of the liftOver coordinate-remapping program (kent/src/hg/liftOver).

The repository source under scrutiny is the dispatcher liftOver.c (its `main`
and its `liftOver` orchestration function); those are embedded faithfully,
statement by statement, in the `LiftOverModel.Cmd` section below.  The
coordinate-remapping engine itself (the liftOverBed/liftOverGff/... library)
is not part of the visible source; the engine definitions in the
`LiftOverModel` namespace are therefore modelled from the specification's
contract for the engine (data model, interval transform, resolver and
threshold policy) and each such definition says so in its doc comment.
-/

namespace LiftOverModel

/-- Modelled from the spec: a ChainBlock is one ungapped aligned run
with a target start, a query start and a shared positive length. -/
structure ChainBlock where
  tStart : Nat
  qStart : Nat
  size : Nat
deriving DecidableEq

/-- Modelled from the spec: a Chain carries id, score, target and query
metadata (name, size, span, strand) and an ordered list of blocks.  A chain
with `qStrandMinus = true` expresses block query coordinates on the reverse
strand; they are flipped against `qSize` when fragments are reported. -/
structure Chain where
  id : Nat
  score : Nat
  tName : String
  tSize : Nat
  tStart : Nat
  tEnd : Nat
  qName : String
  qSize : Nat
  qStart : Nat
  qEnd : Nat
  qStrandMinus : Bool
  blocks : List ChainBlock
deriving DecidableEq

/-- Modelled from the spec: a LiftInterval is a half-open coordinate range
on a named sequence, the engine's universal input/output unit. -/
structure LiftInterval where
  seqName : String
  start : Nat
  stop : Nat
deriving DecidableEq

/-- Modelled from the spec: the engine configuration fields
(minMatch, minBlocks, multiple, minChainT/minChainQ, minSizeQ, noSerial). -/
structure Config where
  minMatch : Rat
  minBlocks : Rat
  multiple : Bool
  minChainT : Nat
  minChainQ : Nat
  minSizeQ : Nat
  noSerial : Bool
deriving DecidableEq

/-- Modelled from the spec: one output region of a lift, with the coverage
statistics used by the ratio thresholds and the serial number assigned in
multi-region mode. -/
structure MappedRegion where
  seqName : String
  start : Nat
  stop : Nat
  strandMinus : Bool
  sourceChainId : Nat
  matchedBases : Nat
  matchedBlocks : Nat
  serial : Nat
deriving DecidableEq

/-- Modelled from the spec: the three LiftResult variants; every
single-interval lift call returns exactly one of them. -/
inductive LiftResult where
  | unmapped
  | mapped (r : MappedRegion)
  | mappedMultiple (rs : List MappedRegion)
deriving DecidableEq

/-- Length of a half-open interval. -/
def ivLen (iv : LiftInterval) : Nat := iv.stop - iv.start

/-- Modelled from the spec: intersect the input interval with one block's
target range; a non-empty intersection yields a fragment whose query start is
`block.qStart + (intersectStart - block.tStart)` and whose length is the
intersection length. -/
def blockFrag (iv : LiftInterval) (b : ChainBlock) : Option (Nat × Nat) :=
  let s := max iv.start b.tStart
  let e := min iv.stop (b.tStart + b.size)
  if s < e then some (b.qStart + (s - b.tStart), e - s) else none

/-- Modelled from the spec: map a single point through a chain; zero-length
(point) features use the covering block when one exists.  The spec leaves a
point falling in an inter-block gap unpinned; the model reports the chain's
query start in that case. -/
def pointQ (c : Chain) (p : Nat) : Nat :=
  match c.blocks.find? (fun b => decide (b.tStart ≤ p) && decide (p < b.tStart + b.size)) with
  | some b => b.qStart + (p - b.tStart)
  | none => c.qStart

/-- Result of transforming one interval through one chain: the fragment list
(query start, length, pre-strand-flip), matched bases, matched blocks, and
the total blocks touched used as the blockRatio denominator. -/
structure TransformOut where
  frags : List (Nat × Nat)
  matchedBases : Nat
  matchedBlocks : Nat
  blocksTouched : Nat
deriving DecidableEq

/-- Modelled from the spec: walk the blocks, keeping every non-empty
intersection as a fragment; matchedBases accumulates fragment lengths and
matchedBlocks counts blocks with a non-empty intersection (a block is
"touched" exactly when its target range meets the interval, so the blockRatio
denominator coincides with that count for plain intervals).  A zero-length
input interval maps to a single zero-length fragment with matchedBases = 0
and no blocks touched, per the spec's point-feature semantics. -/
def transform (c : Chain) (iv : LiftInterval) : TransformOut :=
  if iv.start = iv.stop then
    { frags := [(pointQ c iv.start, 0)], matchedBases := 0, matchedBlocks := 0,
      blocksTouched := 0 }
  else
    let fs := c.blocks.filterMap (blockFrag iv)
    { frags := fs, matchedBases := (fs.map Prod.snd).sum, matchedBlocks := fs.length,
      blocksTouched := fs.length }

/-- Modelled from the spec: centralized strand handling — on a reverse-strand
chain every fragment's query coordinates are flipped against `qSize`. -/
def orientFrags (c : Chain) (fs : List (Nat × Nat)) : List (Nat × Nat) :=
  if c.qStrandMinus then fs.map (fun f => (c.qSize - (f.1 + f.2), f.2)) else fs

/-- Modelled from the spec: the fraction of interval bases that remapped. -/
def matchFrac (iv : LiftInterval) (t : TransformOut) : Rat :=
  (t.matchedBases : Rat) / (ivLen iv : Rat)

/-- Modelled from the spec's ratio policy: an inclusive lower bound
`num / den ≥ thr`, where a denominator of zero is an automatic pass
(vacuous truth). -/
def ratioPass (num den : Nat) (thr : Rat) : Bool :=
  decide (den = 0) || decide (thr ≤ (num : Rat) / (den : Rat))

/-- Modelled from the spec: a candidate passes when both
matchedBases/intervalLength ≥ minMatch and
matchedBlocks/blocksTouched ≥ minBlocks (vacuously on zero denominators). -/
def passesThresholds (cfg : Config) (iv : LiftInterval) (t : TransformOut) : Bool :=
  ratioPass t.matchedBases (ivLen iv) cfg.minMatch &&
  ratioPass t.matchedBlocks t.blocksTouched cfg.minBlocks

/-- Modelled from the spec: whether a chain's target span meets the interval.
For a zero-length (point) interval, overlap means the point lies inside the
chain's target span, keeping point features liftable. -/
def overlapsChain (iv : LiftInterval) (c : Chain) : Bool :=
  decide (max iv.start c.tStart < min iv.stop c.tEnd) ||
  (decide (iv.start = iv.stop) && decide (c.tStart ≤ iv.start) && decide (iv.start < c.tEnd))

/-- Modelled from the spec: the Chain Index query contract — all chains of
the interval's sequence whose target span overlaps the range.  (The binned
spatial index is a performance device; its observable behaviour is this
filter, and an unknown sequence name simply yields the empty list.) -/
def chainCandidates (cm : List Chain) (iv : LiftInterval) : List Chain :=
  cm.filter (fun c => decide (c.tName = iv.seqName) && overlapsChain iv c)

/-- One resolver candidate: a chain together with its transform output. -/
structure Candidate where
  chain : Chain
  out : TransformOut
deriving DecidableEq

/-- Modelled from the spec: run the Interval Transform on every candidate
chain returned by the index query. -/
def candidatesOf (cm : List Chain) (iv : LiftInterval) : List Candidate :=
  (chainCandidates cm iv).map (fun c => { chain := c, out := transform c iv })

/-- Modelled from the spec: candidates surviving the ratio thresholds. -/
def accepted (cfg : Config) (cm : List Chain) (iv : LiftInterval) : List Candidate :=
  (candidatesOf cm iv).filter (fun cd => passesThresholds cfg iv cd.out)

/-- Modelled from the spec: strict "better" order on candidates — greater
matchedBases, tie-broken by higher chain score, then lower chain id. -/
def better (a b : Candidate) : Bool :=
  decide (b.out.matchedBases < a.out.matchedBases) ||
  (decide (a.out.matchedBases = b.out.matchedBases) &&
    (decide (b.chain.score < a.chain.score) ||
      (decide (a.chain.score = b.chain.score) && decide (a.chain.id < b.chain.id))))

/-- Pick the best candidate of a list under `better` (none on empty). -/
def pickBest : List Candidate → Option Candidate
  | [] => none
  | c :: cs =>
    match pickBest cs with
    | none => some c
    | some b => if better b c then some b else some c

/-- Modelled from the spec: single-region output — the envelope (min start,
max end) of the chosen candidate's strand-oriented fragments; a candidate
with no fragments produces nothing. -/
def envelopeRegion (cd : Candidate) : Option MappedRegion :=
  match orientFrags cd.chain cd.out.frags with
  | [] => none
  | f :: rest =>
    let lo := rest.foldl (fun m g => min m g.1) f.1
    let hi := rest.foldl (fun m g => max m (g.1 + g.2)) (f.1 + f.2)
    some { seqName := cd.chain.qName, start := lo, stop := hi,
           strandMinus := cd.chain.qStrandMinus, sourceChainId := cd.chain.id,
           matchedBases := cd.out.matchedBases, matchedBlocks := cd.out.matchedBlocks,
           serial := 0 }

/-- Modelled from the spec: the multi-region chain-span filter — keep a
candidate only when its chain spans at least minChainT in target and
minChainQ in query (defaults 0 = no filter). -/
def chainSpanOK (cfg : Config) (cd : Candidate) : Bool :=
  decide (cfg.minChainT ≤ cd.chain.tEnd - cd.chain.tStart) &&
  decide (cfg.minChainQ ≤ cd.chain.qEnd - cd.chain.qStart)

/-- Modelled from the spec: in multiple mode every accepted candidate
contributes its strand-oriented fragments as independent regions. -/
def fragRegions (cd : Candidate) : List MappedRegion :=
  (orientFrags cd.chain cd.out.frags).map (fun f =>
    { seqName := cd.chain.qName, start := f.1, stop := f.1 + f.2,
      strandMinus := cd.chain.qStrandMinus, sourceChainId := cd.chain.id,
      matchedBases := cd.out.matchedBases, matchedBlocks := cd.out.matchedBlocks,
      serial := 0 })

/-- Modelled from the spec: deterministic ordering of final regions, by
start coordinate then source chain id. -/
def regionLE (a b : MappedRegion) : Bool :=
  decide (a.start < b.start) ||
  (decide (a.start = b.start) && decide (a.sourceChainId ≤ b.sourceChainId))

/-- Modelled from the spec: assign ascending serial numbers starting at 1
unless serial numbering is suppressed. -/
def assignSerials (cfg : Config) (rs : List MappedRegion) : List MappedRegion :=
  if cfg.noSerial then rs
  else (rs.zip (List.range rs.length)).map (fun p => { p.1 with serial := p.2 + 1 })

/-- Modelled from the spec: the multiple-region assembly — accepted
candidates are filtered by chain span, their fragments become regions,
regions below minSizeQ in matched query size are dropped, and the rest are
sorted and serial-numbered.  The optional chain-table extension collaborator
defaults to a no-op returning no extra chains and is modelled as absent. -/
def multiRegions (cfg : Config) (cm : List Chain) (iv : LiftInterval) : List MappedRegion :=
  let spanOK := (accepted cfg cm iv).filter (chainSpanOK cfg)
  let regs := spanOK.flatMap fragRegions
  let regs2 := regs.filter (fun r => decide (cfg.minSizeQ ≤ r.stop - r.start))
  assignSerials cfg (regs2.mergeSort regionLE)

/-- Modelled from the spec: the Liftover Resolver state machine over one
input interval.  No candidates from the index query means Unmapped; multiple
mode assembles regions (Unmapped when none survive); single mode picks the
best accepted candidate and reports its envelope (Unmapped when no candidate
passes the thresholds or the best one yields no fragment).  The function is
total: every call returns one of the three LiftResult variants. -/
def liftInterval (cfg : Config) (cm : List Chain) (iv : LiftInterval) : LiftResult :=
  let cands := candidatesOf cm iv
  if cands.isEmpty then .unmapped
  else if cfg.multiple then
    match multiRegions cfg cm iv with
    | [] => .unmapped
    | r :: rs => .mappedMultiple (r :: rs)
  else
    match pickBest (accepted cfg cm iv) with
    | none => .unmapped
    | some best =>
      match envelopeRegion best with
      | none => .unmapped
      | some r => .mapped r

/-- Number of regions a LiftResult carries. -/
def regionCount : LiftResult → Nat
  | .unmapped => 0
  | .mapped _ => 1
  | .mappedMultiple rs => rs.length

/-- The parsed command-line option state of liftOver.c: one field per entry
of `optionSpecs`.  Valued options are `Option`-typed (`none` = not supplied,
mirroring `optionExists`); boolean flags are `Bool`. -/
structure Options where
  bedPlus : Option Int := none
  chainTable : Option String := none
  errorHelp : Bool := false
  fudgeThick : Bool := false
  genePred : Bool := false
  gff : Bool := false
  hasBin : Bool := false
  minBlocks : Option Rat := none
  minChainQ : Option Int := none
  minChainT : Option Int := none
  minMatch : Option Rat := none
  minSizeQ : Option Int := none
  minSizeT : Option Int := none
  multiple : Bool := false
  noSerial : Bool := false
  positions : Bool := false
  pslT : Bool := false
  sample : Bool := false
  ends : Option Int := none
  tab : Bool := false
  tabSep : Bool := false
  preserveInput : Bool := false
deriving DecidableEq

/-- Modelled from the spec: the default thresholds LIFTOVER_MINMATCH = 0.95
and LIFTOVER_MINBLOCKS = 1.0 (their defining header liftOver.h is outside
the visible source; the spec states the defaults). -/
def LIFTOVER_MINMATCH : Rat := 95 / 100

/-- Modelled from the spec: default minimum block ratio, 1.0. -/
def LIFTOVER_MINBLOCKS : Rat := 1

/-- The argument tuple `main` hands to the `liftOver` function (and through
it to the engine entry points): the four file names, the threshold values,
the four chain/size minimums, the mode flags and the format-related globals
`main` has set. -/
structure LiftOverArgs where
  oldFile : String
  mapFile : String
  newFile : String
  unmappedFile : String
  minMatch : Rat
  minBlocks : Rat
  minSizeT : Int
  minSizeQ : Int
  minChainT : Int
  minChainQ : Int
  multiple : Bool
  noSerial : Bool
  chainTable : Option String
  preserveInput : Bool
  fudgeThick : Bool
  bedPlus : Int
  ends : Int
  hasBin : Bool
  tabSep : Bool
deriving DecidableEq

/-- The ways `main` in liftOver.c terminates without calling `liftOver`:
the errAbort sites in source order, plus the two usage() exits (the
hasBin/tab check and the argc check both call usage). -/
inductive AbortReason where
  | multiFilterWithoutMultiple
  | minSizeTConflictsMinChainT
  | bedPlusOutOfRange (n : Int)
  | usageMessage
  | errorHelpRequested
deriving DecidableEq

/-- Shallow embedding of `main` in src/src/hg/liftOver/liftOver.c, statement
by statement: read minMatch/minBlocks with their defaults; abort when a
multi-region filter option (minSizeT, minSizeQ, minChainT, minChainQ,
chainTable, noSerial) is supplied without -multiple; abort when both
minSizeT and minChainT are supplied; read the four integer options (the
default of the minSizeT read is the still-zero minChainT variable); range
check -bedPlus when supplied; exit via usage when -hasBin, -tab or -tabSep
is supplied with bedPlus still 0; honor -errorHelp; exit via usage unless
exactly four positional arguments remain; otherwise return the argument
tuple passed to `liftOver`.  `posArgs` is argv[1..] after option removal. -/
def mainRun (o : Options) (posArgs : List String) : Except AbortReason LiftOverArgs :=
  let minMatch := o.minMatch.getD LIFTOVER_MINMATCH
  let minBlocks := o.minBlocks.getD LIFTOVER_MINBLOCKS
  if (!o.multiple) &&
      (o.minSizeT.isSome || o.minSizeQ.isSome || o.minChainT.isSome ||
        o.minChainQ.isSome || o.chainTable.isSome || o.noSerial) then
    .error .multiFilterWithoutMultiple
  else if o.minSizeT.isSome && o.minChainT.isSome then
    .error .minSizeTConflictsMinChainT
  else
    let minSizeT := o.minSizeT.getD 0
    let minSizeQ := o.minSizeQ.getD 0
    let minChainT := o.minChainT.getD 0
    let minChainQ := o.minChainQ.getD 0
    let bedPlus : Int := o.bedPlus.getD 0
    if o.bedPlus.isSome && (decide (bedPlus < 3) || decide (bedPlus > 15)) then
      .error (.bedPlusOutOfRange bedPlus)
    else
      let ends := o.ends.getD 0
      let hasBin := o.hasBin
      let tabSep := o.tab || o.tabSep
      if (hasBin || tabSep) && decide (bedPlus = 0) then
        .error .usageMessage
      else if o.errorHelp then
        .error .errorHelpRequested
      else if decide (posArgs.length ≠ 4) then
        .error .usageMessage
      else
        .ok { oldFile := posArgs.getD 0 "", mapFile := posArgs.getD 1 "",
              newFile := posArgs.getD 2 "", unmappedFile := posArgs.getD 3 "",
              minMatch := minMatch, minBlocks := minBlocks,
              minSizeT := minSizeT, minSizeQ := minSizeQ,
              minChainT := minChainT, minChainQ := minChainQ,
              multiple := o.multiple, noSerial := o.noSerial,
              chainTable := o.chainTable, preserveInput := o.preserveInput,
              fudgeThick := o.fudgeThick, bedPlus := bedPlus, ends := ends,
              hasBin := hasBin, tabSep := tabSep }

/-- Which engine entry point the `liftOver` function dispatches to. -/
inductive FormatKind where
  | gff
  | genePred
  | sample
  | pslT
  | bedEnds
  | bedPlusFmt
  | positions
  | bed
deriving DecidableEq

/-- The observable input/output steps of the `liftOver` function, in the
order it performs them. -/
inductive Effect where
  | openWrite (f : String)
  | readChainMap (f : String)
  | warn (s : String)
  | processFile (k : FormatKind) (f : String)
  | closeFile (f : String)
deriving DecidableEq

/-- The errAbort sites inside the `liftOver` function. -/
inductive LiftError where
  | cantFindFile (f : String)
  | multipleNotSupported (fmt : String)
  | chainTableNotSupported (fmt : String)
deriving DecidableEq

/-- Shallow embedding of the `liftOver` function in liftOver.c as the trace
of its input/output steps plus an optional abort: open the mapped and
unmapped output files for writing, abort when the input file does not exist,
read the chain map, dispatch on the format options (with the per-format
-multiple / -chainTable aborts of the gff, genePred, sample and pslT
branches), and finally close the two output files unless the positions
branch ran (which closes them itself).  `fs` tells which file names exist. -/
def liftOverRun (fs : String → Bool) (o : Options) (a : LiftOverArgs) :
    List Effect × Option LiftError :=
  let opened := [Effect.openWrite a.newFile, Effect.openWrite a.unmappedFile]
  if !fs a.oldFile then
    (opened, some (.cantFindFile a.oldFile))
  else
    let pre := opened ++ [Effect.readChainMap a.mapFile]
    if o.gff then
      let warned := pre ++ [Effect.warn "gff is not recommended"]
      if a.multiple then (warned, some (.multipleNotSupported "gff"))
      else if a.chainTable.isSome then (warned, some (.chainTableNotSupported "gff"))
      else (warned ++ [Effect.processFile .gff a.oldFile,
            Effect.closeFile a.newFile, Effect.closeFile a.unmappedFile], none)
    else if o.genePred then
      if a.chainTable.isSome then (pre, some (.chainTableNotSupported "genePred"))
      else (pre ++ [Effect.processFile .genePred a.oldFile,
            Effect.closeFile a.newFile, Effect.closeFile a.unmappedFile], none)
    else if o.sample then
      if a.multiple then (pre, some (.multipleNotSupported "sample"))
      else if a.chainTable.isSome then (pre, some (.chainTableNotSupported "sample"))
      else (pre ++ [Effect.processFile .sample a.oldFile,
            Effect.closeFile a.newFile, Effect.closeFile a.unmappedFile], none)
    else if o.pslT then
      if a.multiple then (pre, some (.multipleNotSupported "pslT"))
      else if a.chainTable.isSome then (pre, some (.chainTableNotSupported "pslT"))
      else (pre ++ [Effect.processFile .pslT a.oldFile,
            Effect.closeFile a.newFile, Effect.closeFile a.unmappedFile], none)
    else if o.ends.isSome then
      (pre ++ [Effect.processFile .bedEnds a.oldFile,
        Effect.closeFile a.newFile, Effect.closeFile a.unmappedFile], none)
    else if o.bedPlus.isSome then
      (pre ++ [Effect.processFile .bedPlusFmt a.oldFile,
        Effect.closeFile a.newFile, Effect.closeFile a.unmappedFile], none)
    else if o.positions then
      (pre ++ [Effect.processFile .positions a.oldFile], none)
    else
      (pre ++ [Effect.processFile .bed a.oldFile,
        Effect.closeFile a.newFile, Effect.closeFile a.unmappedFile], none)

/-- A whole-program error: a configuration abort in `main` or a runtime
abort inside `liftOver`. -/
inductive ProgramError where
  | config (r : AbortReason)
  | runtime (e : LiftError)
deriving DecidableEq

/-- The whole program: `main` validates the options and either aborts —
producing no input/output step at all — or calls `liftOver` with the
argument tuple it built. -/
def programRun (o : Options) (posArgs : List String) (fs : String → Bool) :
    List Effect × Option ProgramError :=
  match mainRun o posArgs with
  | .error r => ([], some (.config r))
  | .ok a =>
    let t := liftOverRun fs o a
    (t.1, t.2.map .runtime)

/-- Default engine configuration: minMatch 0.95, minBlocks 1.0, single
region mode, no multi-region filters. -/
def cfgDefault : Config :=
  { minMatch := 95 / 100, minBlocks := 1, multiple := false,
    minChainT := 0, minChainQ := 0, minSizeQ := 0, noSerial := false }

/-- The chain of the spec's worked scenario: a single block
(targetStart 100, queryStart 500, size 50) on sequence chr1, forward
strand. -/
def chainC4 : Chain :=
  { id := 1, score := 1000, tName := "chr1", tSize := 1000, tStart := 100, tEnd := 150,
    qName := "chr1", qSize := 1000, qStart := 500, qEnd := 550, qStrandMinus := false,
    blocks := [{ tStart := 100, qStart := 500, size := 50 }] }

/-- The input interval of the spec's worked scenario, chr1:110-140. -/
def ivC4 : LiftInterval := { seqName := "chr1", start := 110, stop := 140 }

/-- A zero-length (point) interval inside the scenario chain's span. -/
def ivPoint : LiftInterval := { seqName := "chr1", start := 120, stop := 120 }

/-- An interval on a sequence name no chain carries. -/
def ivNoChain : LiftInterval := { seqName := "chrX", start := 0, stop := 10 }

/-- Multi-region configuration used by the concrete monotonicity witness. -/
def cfgMulti : Config := { cfgDefault with multiple := true }

/-- Four positional command-line arguments: oldFile, map.chain, newFile,
unMapped. -/
def filesABCD : List String := ["old.bed", "map.chain", "new.bed", "unMapped.txt"]

/-- A file system in which every file exists. -/
def fsAll : String → Bool := fun _ => true

/-- A file system in which no file exists. -/
def fsNone : String → Bool := fun _ => false

/-- An invocation with no options at all. -/
def optsDefault : Options := {}

/-- The argument tuple `main` builds for an option-free invocation on
`filesABCD`: every threshold at its default, every filter at zero. -/
def argsDefault : LiftOverArgs :=
  { oldFile := "old.bed", mapFile := "map.chain", newFile := "new.bed",
    unmappedFile := "unMapped.txt", minMatch := LIFTOVER_MINMATCH,
    minBlocks := LIFTOVER_MINBLOCKS, minSizeT := 0, minSizeQ := 0, minChainT := 0,
    minChainQ := 0, multiple := false, noSerial := false, chainTable := none,
    preserveInput := false, fudgeThick := false, bedPlus := 0, ends := 0,
    hasBin := false, tabSep := false }

/-- An invocation supplying -minMatch=2, a threshold outside [0,1]. -/
def optsC1 : Options := { minMatch := some 2 }

/-- The argument tuple `main` builds for `optsC1`: the out-of-range
threshold is passed through to the engine unchanged. -/
def argsC1 : LiftOverArgs := { argsDefault with minMatch := 2 }

/-- An invocation supplying -multiple and the deprecated -minSizeT=5. -/
def optsSizeT5 : Options := { minSizeT := some 5, multiple := true }

/-- An invocation supplying -multiple and -minChainT=5. -/
def optsChainT5 : Options := { minChainT := some 5, multiple := true }

/-- The argument tuple `main` builds for `optsSizeT5`: the alias value
lands in the separate minSizeT engine parameter while minChainT stays 0. -/
def argsSizeT5 : LiftOverArgs := { argsDefault with minSizeT := 5, multiple := true }

/-- An invocation supplying an out-of-range -bedPlus=20 together with an
option conflict (-minSizeT and -minChainT both set, under -multiple). -/
def optsC8out : Options :=
  { bedPlus := some 20, minSizeT := some 1, minChainT := some 1, multiple := true }

/-- As `optsC8out` but with the in-range -bedPlus=5. -/
def optsC8in : Options :=
  { bedPlus := some 5, minSizeT := some 1, minChainT := some 1, multiple := true }

/-- An invocation supplying only the out-of-range -bedPlus=20. -/
def optsBedPlus20 : Options := { bedPlus := some 20 }

/-- An invocation supplying -hasBin without -bedPlus, together with
-minChainT without -multiple. -/
def optsC9 : Options := { hasBin := true, minChainT := some 1 }

/-- An invocation supplying only -hasBin (no -bedPlus). -/
def optsHasBin : Options := { hasBin := true }

end LiftOverModel

namespace LiftOverModel

theorem pickBest_mem {l : List Candidate} {c : Candidate} (h : pickBest l = some c) :
    c ∈ l := by
  induction l with
  | nil => simp [pickBest] at h
  | cons a as ih =>
    simp only [pickBest] at h
    cases hb : pickBest as with
    | none => rw [hb] at h; simp at h; simp [h]
    | some b =>
      rw [hb] at h
      simp only at h
      by_cases hby : better b a
      · rw [if_pos hby] at h
        cases h
        exact List.mem_cons_of_mem _ (ih hb)
      · rw [if_neg hby] at h
        cases h
        exact List.mem_cons_self _ _

theorem pickBest_of_ne_nil {l : List Candidate} (h : l ≠ []) :
    ∃ c, pickBest l = some c := by
  cases l with
  | nil => exact absurd rfl h
  | cons a as =>
    simp only [pickBest]
    cases hb : pickBest as with
    | none => exact ⟨a, rfl⟩
    | some b =>
      by_cases hby : better b a
      · exact ⟨b, by simp [hby]⟩
      · exact ⟨a, by simp [hby]⟩

theorem sublist_flatMap {α β : Type} (f : α → List β) {l₁ l₂ : List α}
    (h : l₁.Sublist l₂) : (l₁.flatMap f).Sublist (l₂.flatMap f) := by
  induction h with
  | slnil => simp
  | cons a h ih =>
    simp only [List.flatMap_cons]
    exact ih.trans ((f a).sublist_append_right _)
  | cons₂ a h ih =>
    simp only [List.flatMap_cons]
    exact List.Sublist.append (List.Sublist.refl (f a)) ih

theorem assignSerials_length (cfg : Config) (rs : List MappedRegion) :
    (assignSerials cfg rs).length = rs.length := by
  by_cases h : cfg.noSerial <;> simp [assignSerials, h]

theorem multiRegions_length (cfg : Config) (cm : List Chain) (iv : LiftInterval) :
    (multiRegions cfg cm iv).length =
      ((((accepted cfg cm iv).filter (chainSpanOK cfg)).flatMap fragRegions).filter
        (fun r => decide (cfg.minSizeQ ≤ r.stop - r.start))).length := by
  simp [multiRegions, assignSerials_length, List.length_mergeSort]

theorem regionCount_lift_of_multiple (cfg : Config) (cm : List Chain) (iv : LiftInterval)
    (hm : cfg.multiple = true) :
    regionCount (liftInterval cfg cm iv) = (multiRegions cfg cm iv).length := by
  simp only [liftInterval, hm, if_true]
  by_cases hc : (candidatesOf cm iv).isEmpty
  · have hnil : candidatesOf cm iv = [] := List.isEmpty_iff.mp hc
    have : multiRegions cfg cm iv = [] := by
      simp [multiRegions, accepted, hnil, assignSerials]
    simp [hc, this, regionCount]
  · simp only [hc, Bool.false_eq_true, if_false]
    cases h : multiRegions cfg cm iv with
    | nil => simp [regionCount]
    | cons r rs => simp [regionCount]

theorem multiRegions_length_anti (cfg : Config) (cm : List Chain) (iv : LiftInterval)
    {t1 t2 : Nat} (h : t1 ≤ t2) :
    (multiRegions { cfg with minChainT := t2 } cm iv).length ≤
      (multiRegions { cfg with minChainT := t1 } cm iv).length := by
  have hacc : accepted { cfg with minChainT := t2 } cm iv =
      accepted { cfg with minChainT := t1 } cm iv := rfl
  have hmono : ∀ cd : Candidate,
      chainSpanOK { cfg with minChainT := t2 } cd = true →
        chainSpanOK { cfg with minChainT := t1 } cd = true := by
    intro cd hcd
    simp only [chainSpanOK, Bool.and_eq_true, decide_eq_true_eq] at hcd ⊢
    exact ⟨le_trans h hcd.1, hcd.2⟩
  have hsub :
      ((accepted { cfg with minChainT := t2 } cm iv).filter
          (chainSpanOK { cfg with minChainT := t2 })).Sublist
        ((accepted { cfg with minChainT := t1 } cm iv).filter
          (chainSpanOK { cfg with minChainT := t1 })) := by
    rw [hacc]
    exact List.monotone_filter_right _ hmono
  rw [multiRegions_length, multiRegions_length]
  exact (List.Sublist.filter _ (sublist_flatMap fragRegions hsub)).length_le

/-- C4: transforming the interval chr1:[110,140) through a forward-strand
chain on sequence chr1 with the single block (targetStart 100,
queryStart 500, size 50) yields a single Mapped region with query
coordinates [510,540), matchedBases 30, and a match fraction of 1. -/
theorem claim4_single_block_scenario :
    liftInterval cfgDefault [chainC4] ivC4 =
      .mapped { seqName := "chr1", start := 510, stop := 540, strandMinus := false,
                sourceChainId := 1, matchedBases := 30, matchedBlocks := 1, serial := 0 } ∧
    matchFrac ivC4 (transform chainC4 ivC4) = 1 := by
  have ht : transform chainC4 ivC4 =
      { frags := [(510, 30)], matchedBases := 30, matchedBlocks := 1, blocksTouched := 1 } := rfl
  have hpass : passesThresholds cfgDefault ivC4 (transform chainC4 ivC4) = true := by
    rw [ht]
    simp only [passesThresholds, ratioPass, ivLen, ivC4, cfgDefault]
    norm_num
  have hacc : accepted cfgDefault [chainC4] ivC4 =
      [{ chain := chainC4, out := transform chainC4 ivC4 }] := by
    have hcand : candidatesOf [chainC4] ivC4 =
        [{ chain := chainC4, out := transform chainC4 ivC4 }] := rfl
    rw [accepted, hcand]
    simp [hpass]
  constructor
  · simp only [liftInterval]
    rw [hacc]
    rfl
  · rw [ht]
    simp only [matchFrac, ivLen, ivC4]
    norm_num

/-- C6: an input interval whose sequence name has no chains in the index,
or whose range overlaps no chain, always yields the Unmapped result variant
(the resolver is a total function into the three LiftResult variants, so no
error can be raised or propagated). -/
theorem claim6_no_overlap_unmapped (cfg : Config) (cm : List Chain) (iv : LiftInterval)
    (h : ∀ c ∈ cm, ¬(c.tName = iv.seqName ∧ overlapsChain iv c = true)) :
    liftInterval cfg cm iv = .unmapped := by
  have hnil : chainCandidates cm iv = [] := by
    rw [chainCandidates, List.filter_eq_nil_iff]
    intro c hc
    simp only [Bool.and_eq_true, decide_eq_true_eq, not_and]
    intro h1 h2
    exact h c hc ⟨h1, h2⟩
  simp [liftInterval, candidatesOf, hnil]

/-- Closed witness for C6: an interval on sequence chrX, which no chain of
the one-chain map carries, is Unmapped. -/
theorem claim6_no_overlap_unmapped_witness :
    liftInterval cfgDefault [chainC4] ivNoChain = .unmapped :=
  claim6_no_overlap_unmapped cfgDefault [chainC4] ivNoChain (by decide)

/-- C7: in multiple-region mode, with all other configuration equal, the
number of regions returned with minChainT = t2 is at most the number
returned with minChainT = t1 whenever t1 ≤ t2: the chain-span filter is
monotone. -/
theorem claim7_minChainT_monotone (cfg : Config) (cm : List Chain) (iv : LiftInterval)
    {t1 t2 : Nat} (hm : cfg.multiple = true) (h : t1 ≤ t2) :
    regionCount (liftInterval { cfg with minChainT := t2 } cm iv) ≤
      regionCount (liftInterval { cfg with minChainT := t1 } cm iv) := by
  rw [regionCount_lift_of_multiple { cfg with minChainT := t2 } cm iv hm,
      regionCount_lift_of_multiple { cfg with minChainT := t1 } cm iv hm]
  exact multiRegions_length_anti cfg cm iv h

theorem envelopeRegion_single {cd : Candidate} {q : Nat}
    (h : cd.out.frags = [(q, 0)]) :
    ∃ q2, envelopeRegion cd = some
      { seqName := cd.chain.qName, start := q2, stop := q2,
        strandMinus := cd.chain.qStrandMinus, sourceChainId := cd.chain.id,
        matchedBases := cd.out.matchedBases, matchedBlocks := cd.out.matchedBlocks,
        serial := 0 } := by
  by_cases hs : cd.chain.qStrandMinus
  · refine ⟨cd.chain.qSize - (q + 0), ?_⟩
    simp [envelopeRegion, orientFrags, h, hs]
  · refine ⟨q, ?_⟩
    simp [envelopeRegion, orientFrags, h, hs]

/-- C5: a zero-length input interval with at least one overlapping chain
transforms to matchedBases 0 with only zero-length fragments on every
candidate, both ratio threshold checks pass vacuously (zero denominators),
so no candidate is rejected by thresholds, and in single-region mode the
lift returns a zero-length Mapped region with matchedBases 0 rather than a
threshold rejection. -/
theorem claim5_zero_length_never_rejected (cfg : Config) (cm : List Chain)
    (iv : LiftInterval) (hz : iv.start = iv.stop) (hc : chainCandidates cm iv ≠ []) :
    (∀ cd ∈ candidatesOf cm iv,
        cd.out.matchedBases = 0 ∧ (∀ f ∈ cd.out.frags, f.2 = 0) ∧
        passesThresholds cfg iv cd.out = true) ∧
    accepted cfg cm iv = candidatesOf cm iv ∧
    (cfg.multiple = false →
      ∃ r, liftInterval cfg cm iv = .mapped r ∧ r.stop = r.start ∧ r.matchedBases = 0) := by
  have hivlen : ivLen iv = 0 := by simp [ivLen, hz]
  have htr : ∀ c : Chain, transform c iv =
      { frags := [(pointQ c iv.start, 0)], matchedBases := 0, matchedBlocks := 0,
        blocksTouched := 0 } := by
    intro c
    simp only [transform]
    rw [if_pos hz]
  have part1 : ∀ cd ∈ candidatesOf cm iv,
      cd.out.matchedBases = 0 ∧ (∀ f ∈ cd.out.frags, f.2 = 0) ∧
      passesThresholds cfg iv cd.out = true := by
    intro cd hcd
    obtain ⟨c, hcmem, hbe⟩ := List.mem_map.mp hcd
    cases hbe
    rw [htr c]
    refine ⟨rfl, ?_, ?_⟩
    · intro f hf
      simp only [List.mem_singleton] at hf
      rw [hf]
    · simp [passesThresholds, ratioPass, hivlen]
  have part2 : accepted cfg cm iv = candidatesOf cm iv :=
    List.filter_eq_self.mpr (fun cd hcd => (part1 cd hcd).2.2)
  refine ⟨part1, part2, ?_⟩
  intro hsm
  have hCne : candidatesOf cm iv ≠ [] := by
    simp only [candidatesOf, ne_eq, List.map_eq_nil_iff]
    exact hc
  have hAne : accepted cfg cm iv ≠ [] := part2 ▸ hCne
  obtain ⟨best, hbest⟩ := pickBest_of_ne_nil hAne
  have hbm : best ∈ candidatesOf cm iv := part2 ▸ pickBest_mem hbest
  obtain ⟨c, hcmem, hbe⟩ := List.mem_map.mp hbm
  have hfr : best.out.frags = [(pointQ c iv.start, 0)] := by
    rw [← hbe, htr c]
  have hmb : best.out.matchedBases = 0 := by
    rw [← hbe, htr c]
  obtain ⟨q2, henv⟩ := envelopeRegion_single hfr
  refine ⟨{ seqName := best.chain.qName, start := q2, stop := q2,
            strandMinus := best.chain.qStrandMinus, sourceChainId := best.chain.id,
            matchedBases := best.out.matchedBases, matchedBlocks := best.out.matchedBlocks,
            serial := 0 }, ?_, rfl, hmb⟩
  simp only [liftInterval]
  rw [if_neg (by simp [List.isEmpty_iff, hCne]), if_neg (by simp [hsm]), hbest]
  show (match envelopeRegion best with
    | none => LiftResult.unmapped
    | some r => LiftResult.mapped r) = _
  rw [henv]

/-- Closed witness for C5: the point interval chr1:[120,120) inside the
scenario chain maps to a zero-length region with matchedBases 0 under the
default single-region configuration. -/
theorem claim5_zero_length_never_rejected_witness :
    ivPoint.start = ivPoint.stop ∧ chainCandidates [chainC4] ivPoint ≠ [] ∧
    (cfgDefault.multiple = false →
      ∃ r, liftInterval cfgDefault [chainC4] ivPoint = .mapped r ∧
        r.stop = r.start ∧ r.matchedBases = 0) :=
  ⟨rfl, by decide,
    (claim5_zero_length_never_rejected cfgDefault [chainC4] ivPoint rfl (by decide)).2.2⟩

/-- Closed witness for C7 at a concrete chain map, interval and thresholds
10 ≤ 60. -/
theorem claim7_minChainT_monotone_witness :
    cfgMulti.multiple = true ∧ (10 : Nat) ≤ 60 ∧
    regionCount (liftInterval { cfgMulti with minChainT := 60 } [chainC4] ivC4) ≤
      regionCount (liftInterval { cfgMulti with minChainT := 10 } [chainC4] ivC4) :=
  ⟨rfl, by decide, claim7_minChainT_monotone cfgMulti [chainC4] ivC4 rfl (by decide)⟩

/-- C3: supplying any of the multi-region filter options (minSizeT,
minSizeQ, minChainT, minChainQ, chainTable, noSerial) without -multiple
makes the program abort with the fatal configuration error and produce an
empty input/output trace: nothing is opened, no input or chain file is read
or processed. -/
theorem claim3_multi_filter_requires_multiple (o : Options) (posArgs : List String)
    (fs : String → Bool) (hm : o.multiple = false)
    (hopt : o.minSizeT.isSome = true ∨ o.minSizeQ.isSome = true ∨
      o.minChainT.isSome = true ∨ o.minChainQ.isSome = true ∨
      o.chainTable.isSome = true ∨ o.noSerial = true) :
    programRun o posArgs fs = ([], some (.config .multiFilterWithoutMultiple)) := by
  have hcond : ((!o.multiple) &&
      (o.minSizeT.isSome || o.minSizeQ.isSome || o.minChainT.isSome ||
        o.minChainQ.isSome || o.chainTable.isSome || o.noSerial)) = true := by
    rw [hm]
    simp only [Bool.not_false, Bool.true_and, Bool.or_eq_true]
    tauto
  have hmain : mainRun o posArgs = .error .multiFilterWithoutMultiple := by
    simp only [mainRun]
    rw [if_pos hcond]
  simp [programRun, hmain]

/-- Closed witness for C3: -minChainT=5 without -multiple aborts with the
configuration error and an empty trace. -/
theorem claim3_multi_filter_requires_multiple_witness :
    programRun { minChainT := some 5 } filesABCD fsAll =
      ([], some (.config .multiFilterWithoutMultiple)) :=
  claim3_multi_filter_requires_multiple { minChainT := some 5 } filesABCD fsAll rfl
    (Or.inr (Or.inr (Or.inl rfl)))

/-- C10: when the input file does not exist, the program aborts with the
cannot-find-file error before reading the chain map — its trace holds no
readChainMap step — but only after the mapped and unmapped output files
have been opened for writing. -/
theorem claim10_missing_input_aborts_after_open (o : Options) (posArgs : List String)
    (fs : String → Bool) (a : LiftOverArgs) (hok : mainRun o posArgs = .ok a)
    (hex : fs a.oldFile = false) :
    programRun o posArgs fs =
      ([Effect.openWrite a.newFile, Effect.openWrite a.unmappedFile],
        some (.runtime (.cantFindFile a.oldFile))) ∧
    ∀ m, Effect.readChainMap m ∉ (programRun o posArgs fs).1 := by
  have hrun : liftOverRun fs o a =
      ([Effect.openWrite a.newFile, Effect.openWrite a.unmappedFile],
        some (.cantFindFile a.oldFile)) := by
    simp only [liftOverRun, hex]
    rfl
  have heq : programRun o posArgs fs =
      ([Effect.openWrite a.newFile, Effect.openWrite a.unmappedFile],
        some (.runtime (.cantFindFile a.oldFile))) := by
    simp only [programRun, hok, hrun]
    rfl
  refine ⟨heq, ?_⟩
  rw [heq]
  intro m
  simp

/-- Closed witness for C10: an option-free invocation on a file system with
no files opens the two output files and then aborts without reading the
chain map. -/
theorem claim10_missing_input_aborts_after_open_witness :
    programRun optsDefault filesABCD fsNone =
      ([Effect.openWrite argsDefault.newFile, Effect.openWrite argsDefault.unmappedFile],
        some (.runtime (.cantFindFile argsDefault.oldFile))) :=
  (claim10_missing_input_aborts_after_open optsDefault filesABCD fsNone argsDefault
    rfl rfl).1

/-- Counterexample to C1: the invocation -minMatch=2 supplies a ratio
threshold outside [0,1], yet `main` raises no configuration error at
startup — it succeeds and hands the engine the unchecked value 2. -/
theorem claim1_counterexample :
    ¬((0 : Rat) ≤ 2 ∧ (2 : Rat) ≤ 1) ∧
    mainRun optsC1 filesABCD = Except.ok argsC1 ∧ argsC1.minMatch = 2 :=
  ⟨by decide, rfl, rfl⟩

/-- C1 as amended: `main` performs no range validation of minMatch or
minBlocks; an otherwise-valid invocation whose minMatch or minBlocks lies
outside [0,1] raises no configuration error at startup and the values reach
the engine unchanged. -/
theorem claim1_thresholds_unchecked (m b : Rat) (posArgs : List String)
    (h4 : posArgs.length = 4) (_hout : m < 0 ∨ 1 < m ∨ b < 0 ∨ 1 < b) :
    ∃ a, mainRun { minMatch := some m, minBlocks := some b } posArgs = .ok a ∧
      a.minMatch = m ∧ a.minBlocks = b := by
  refine ⟨{ oldFile := posArgs.getD 0 "", mapFile := posArgs.getD 1 "",
            newFile := posArgs.getD 2 "", unmappedFile := posArgs.getD 3 "",
            minMatch := m, minBlocks := b, minSizeT := 0, minSizeQ := 0,
            minChainT := 0, minChainQ := 0, multiple := false, noSerial := false,
            chainTable := none, preserveInput := false, fudgeThick := false,
            bedPlus := 0, ends := 0, hasBin := false, tabSep := false }, ?_, rfl, rfl⟩
  simp [mainRun, h4]

/-- Closed witness for the amended C1 at minMatch = 2 (with 1 < 2). -/
theorem claim1_thresholds_unchecked_witness :
    ∃ a, mainRun { minMatch := some 2, minBlocks := some 1 } filesABCD = .ok a ∧
      a.minMatch = 2 ∧ a.minBlocks = 1 :=
  claim1_thresholds_unchecked 2 1 filesABCD rfl (Or.inr (Or.inl (by decide)))

/-- Counterexample to C2: with -multiple, the invocation -minSizeT=5 makes
`main` deliver the engine the pair (minSizeT = 5, minChainT = 0) while
-minChainT=5 delivers (minSizeT = 0, minChainT = 5): the two configurations
delivered to the engine are not identical, and the engine receives the
deprecated alias as its own separate minSizeT parameter. -/
theorem claim2_counterexample :
    (mainRun optsSizeT5 filesABCD).toOption.map (fun a => (a.minSizeT, a.minChainT)) =
      some (5, 0) ∧
    (mainRun optsChainT5 filesABCD).toOption.map (fun a => (a.minSizeT, a.minChainT)) =
      some (0, 5) ∧
    mainRun optsSizeT5 filesABCD ≠ mainRun optsChainT5 filesABCD := by
  refine ⟨rfl, rfl, ?_⟩
  intro h
  have e1 : (mainRun optsSizeT5 filesABCD).toOption.map
      (fun a => (a.minSizeT, a.minChainT)) = some (5, 0) := rfl
  have e2 : (mainRun optsChainT5 filesABCD).toOption.map
      (fun a => (a.minSizeT, a.minChainT)) = some (0, 5) := rfl
  rw [h, e2] at e1
  simp at e1

/-- C2 as amended: when the deprecated -minSizeT=N is given and -minChainT
is not, `main` delivers the engine an argument tuple whose separate
minSizeT field is N and whose minChainT field is 0; the alias is not
collapsed into minChainT at the boundary (the source comment at the
minSizeT read claims to set minChainT, but the code sets minSizeT). -/
theorem claim2_alias_kept_separate (o : Options) (posArgs : List String)
    (a : LiftOverArgs) (N : Int) (hS : o.minSizeT = some N) (hC : o.minChainT = none)
    (hok : mainRun o posArgs = .ok a) :
    a.minSizeT = N ∧ a.minChainT = 0 := by
  simp only [mainRun] at hok
  split at hok
  · exact absurd hok (by simp)
  split at hok
  · exact absurd hok (by simp)
  split at hok
  · exact absurd hok (by simp)
  split at hok
  · exact absurd hok (by simp)
  split at hok
  · exact absurd hok (by simp)
  split at hok
  · exact absurd hok (by simp)
  simp only [Except.ok.injEq] at hok
  subst hok
  exact ⟨by simp [hS], by simp [hC]⟩

/-- Closed witness for the amended C2: for -multiple -minSizeT=5 the engine
call carries minSizeT = 5 and minChainT = 0. -/
theorem claim2_alias_kept_separate_witness :
    argsSizeT5.minSizeT = 5 ∧ argsSizeT5.minChainT = 0 :=
  claim2_alias_kept_separate optsSizeT5 filesABCD argsSizeT5 5 rfl rfl rfl

/-- Counterexample to C8: an invocation supplying -bedPlus=20 (out of
range) together with both -minSizeT and -minChainT aborts with the
minSizeT-conflict error, not the out-of-range error; one supplying the
in-range -bedPlus=5 together with the same conflict is not accepted either.
The universal claim over all invocations supplying -bedPlus=N therefore
fails: earlier startup checks can preempt the bedPlus validation. -/
theorem claim8_counterexample :
    ((3 : Int) ≤ 5 ∧ (5 : Int) ≤ 15) ∧ ¬((3 : Int) ≤ 20 ∧ (20 : Int) ≤ 15) ∧
    mainRun optsC8out filesABCD = .error .minSizeTConflictsMinChainT ∧
    mainRun optsC8in filesABCD = .error .minSizeTConflictsMinChainT :=
  ⟨by decide, by decide, rfl, rfl⟩

/-- C8 as amended: provided the two earlier startup checks pass (no
multi-region filter option without -multiple, and not both -minSizeT and
-minChainT), an invocation supplying -bedPlus=N aborts with the
out-of-range configuration error — with an empty input/output trace — when
N is outside [3,15], and is never rejected by the bedPlus range check when
3 ≤ N ≤ 15. -/
theorem claim8_bedPlus_range (o : Options) (posArgs : List String)
    (fs : String → Bool) (N : Int) (hbp : o.bedPlus = some N)
    (hpre1 : ((!o.multiple) &&
      (o.minSizeT.isSome || o.minSizeQ.isSome || o.minChainT.isSome ||
        o.minChainQ.isSome || o.chainTable.isSome || o.noSerial)) = false)
    (hpre2 : (o.minSizeT.isSome && o.minChainT.isSome) = false) :
    (¬(3 ≤ N ∧ N ≤ 15) →
      programRun o posArgs fs = ([], some (.config (.bedPlusOutOfRange N)))) ∧
    ((3 ≤ N ∧ N ≤ 15) → ∀ M, mainRun o posArgs ≠ .error (.bedPlusOutOfRange M)) := by
  constructor
  · intro hout
    have hmain : mainRun o posArgs = .error (.bedPlusOutOfRange N) := by
      simp only [mainRun, hbp, Option.getD_some, Option.isSome_some]
      rw [if_neg (by simp [hpre1]), if_neg (by simp [hpre2]),
        if_pos (by simp only [Bool.true_and, Bool.or_eq_true, decide_eq_true_eq]; omega)]
    simp [programRun, hmain]
  · intro hin M heq
    simp only [mainRun, hbp, Option.getD_some, Option.isSome_some] at heq
    split at heq
    · simp at heq
    split at heq
    · simp at heq
    split at heq
    · next hcond =>
      simp only [Bool.true_and, Bool.or_eq_true, decide_eq_true_eq] at hcond
      omega
    split at heq
    · simp at heq
    split at heq
    · simp at heq
    split at heq
    · simp at heq
    simp at heq

/-- Closed witness for the amended C8: supplying only -bedPlus=20 aborts
with the out-of-range error and an empty trace. -/
theorem claim8_bedPlus_range_witness :
    programRun optsBedPlus20 filesABCD fsAll =
      ([], some (.config (.bedPlusOutOfRange 20))) :=
  (claim8_bedPlus_range optsBedPlus20 filesABCD fsAll 20 rfl rfl rfl).1 (by decide)

/-- Counterexample to C9: an invocation supplying -hasBin without -bedPlus
but also -minChainT without -multiple exits with the multi-filter
configuration error, not via the usage message, so the universal claim over
all such invocations fails. -/
theorem claim9_counterexample :
    optsC9.hasBin = true ∧ optsC9.bedPlus = none ∧
    mainRun optsC9 filesABCD = .error .multiFilterWithoutMultiple ∧
    mainRun optsC9 filesABCD ≠ .error .usageMessage := by
  refine ⟨rfl, rfl, rfl, ?_⟩
  intro h
  have e : mainRun optsC9 filesABCD = .error .multiFilterWithoutMultiple := rfl
  rw [e] at h
  simp at h

/-- C9 as amended: provided the two earlier startup checks pass (no
multi-region filter option without -multiple, and not both -minSizeT and
-minChainT), any invocation supplying -hasBin, -tab or -tabSep without
-bedPlus exits via the usage message with an empty input/output trace,
before processing any input. -/
theorem claim9_hasBin_tab_need_bedPlus (o : Options) (posArgs : List String)
    (fs : String → Bool)
    (hflag : o.hasBin = true ∨ o.tab = true ∨ o.tabSep = true)
    (hbp : o.bedPlus = none)
    (hpre1 : ((!o.multiple) &&
      (o.minSizeT.isSome || o.minSizeQ.isSome || o.minChainT.isSome ||
        o.minChainQ.isSome || o.chainTable.isSome || o.noSerial)) = false)
    (hpre2 : (o.minSizeT.isSome && o.minChainT.isSome) = false) :
    programRun o posArgs fs = ([], some (.config .usageMessage)) := by
  have hmain : mainRun o posArgs = .error .usageMessage := by
    simp only [mainRun, hbp, Option.getD_none, Option.isSome_none]
    rw [if_neg (by simp [hpre1]), if_neg (by simp [hpre2]), if_neg (by simp),
      if_pos (by rcases hflag with h | h | h <;> simp [h])]
  simp [programRun, hmain]

/-- Closed witness for the amended C9: supplying only -hasBin exits via the
usage message with an empty trace. -/
theorem claim9_hasBin_tab_need_bedPlus_witness :
    programRun optsHasBin filesABCD fsAll = ([], some (.config .usageMessage)) :=
  claim9_hasBin_tab_need_bedPlus optsHasBin filesABCD fsAll (Or.inl rfl) rfl rfl rfl

end LiftOverModel
